import Mathlib

/-!
Shallow embedding of `src/steps/flat2elisa.py` (the PTgen flat-text → ELISA
XML converter).  Pure string/list functions model the script's `main` loop;
the filesystem is an explicit record of functions; per-file read failures are
modelled by an optional failure index on the file's line stream.
-/

/-- Model of Python `str.isspace` on a single character (the code points that
`str.strip` removes). -/
def isPySpace (c : Char) : Bool :=
  [0x9, 0xa, 0xb, 0xc, 0xd, 0x1c, 0x1d, 0x1e, 0x1f, 0x20, 0x85, 0xa0,
   0x1680, 0x2000, 0x2001, 0x2002, 0x2003, 0x2004, 0x2005, 0x2006, 0x2007,
   0x2008, 0x2009, 0x200a, 0x2028, 0x2029, 0x202f, 0x205f, 0x3000].contains c.toNat

/-- Model of Python `line.strip()`: drop leading and trailing whitespace. -/
def pstrip (s : String) : String :=
  ⟨((s.data.dropWhile isPySpace).reverse.dropWhile isPySpace).reverse⟩

/-- Splitting accumulator loop for `psplit`. -/
def psplitAux (sep : Char) : List Char → List Char → List (List Char)
  | [], acc => [acc.reverse]
  | c :: rest, acc =>
    if c = sep then acc.reverse :: psplitAux sep rest []
    else psplitAux sep rest (c :: acc)

/-- Model of Python `s.split(sep)` for a one-character separator (the script
only splits on `'.'`, `'_'`; path handling splits on `'/'`). -/
def psplit (sep : Char) (s : String) : List String :=
  (psplitAux sep s.data []).map (fun l => ⟨l⟩)

/-- Model of `os.path.basename` (POSIX): the part after the last slash. -/
def basename (p : String) : String :=
  (psplit '/' p).getLastD ""

/-- Model of `os.path.join` for two components (POSIX semantics). -/
def pjoin (a b : String) : String :=
  if b.data.headD ' ' = '/' then b
  else if a = "" || a.data.getLastD ' ' = '/' then a ++ b
  else a ++ "/" ++ b

/-- UTF-8 encoding of one code point, as a list of byte values. -/
def codepointUtf8 (n : Nat) : List Nat :=
  if n < 0x80 then [n]
  else if n < 0x800 then [0xc0 + n / 64, 0x80 + n % 64]
  else if n < 0x10000 then [0xe0 + n / 4096, 0x80 + (n / 64) % 64, 0x80 + n % 64]
  else [0xf0 + n / 262144, 0x80 + (n / 4096) % 64, 0x80 + (n / 64) % 64, 0x80 + n % 64]

/-- Model of Python `line.encode('utf-8')`: the UTF-8 bytes of a string. -/
def utf8Encode (s : String) : List Nat :=
  (s.data.map (fun c => codepointUtf8 c.toNat)).flatten

/-! ### MD5 (models `hashlib.md5(...).hexdigest()`, per RFC 1321) -/

/-- 2^32, the modulus for MD5's 32-bit arithmetic. -/
def M32 : Nat := 4294967296

/-- 32-bit addition. -/
def add32 (a b : Nat) : Nat := (a + b) % M32

/-- 32-bit complement (arguments are kept below 2^32). -/
def not32 (a : Nat) : Nat := 4294967295 - a

/-- 32-bit left rotation. -/
def rotl32 (x s : Nat) : Nat := ((x <<< s) % M32) + (x >>> (32 - s))

/-- The 64 MD5 sine-derived constants K. -/
def md5K : List Nat :=
  [0xd76aa478, 0xe8c7b756, 0x242070db, 0xc1bdceee,
   0xf57c0faf, 0x4787c62a, 0xa8304613, 0xfd469501,
   0x698098d8, 0x8b44f7af, 0xffff5bb1, 0x895cd7be,
   0x6b901122, 0xfd987193, 0xa679438e, 0x49b40821,
   0xf61e2562, 0xc040b340, 0x265e5a51, 0xe9b6c7aa,
   0xd62f105d, 0x02441453, 0xd8a1e681, 0xe7d3fbc8,
   0x21e1cde6, 0xc33707d6, 0xf4d50d87, 0x455a14ed,
   0xa9e3e905, 0xfcefa3f8, 0x676f02d9, 0x8d2a4c8a,
   0xfffa3942, 0x8771f681, 0x6d9d6122, 0xfde5380c,
   0xa4beea44, 0x4bdecfa9, 0xf6bb4b60, 0xbebfbc70,
   0x289b7ec6, 0xeaa127fa, 0xd4ef3085, 0x04881d05,
   0xd9d4d039, 0xe6db99e5, 0x1fa27cf8, 0xc4ac5665,
   0xf4292244, 0x432aff97, 0xab9423a7, 0xfc93a039,
   0x655b59c3, 0x8f0ccc92, 0xffeff47d, 0x85845dd1,
   0x6fa87e4f, 0xfe2ce6e0, 0xa3014314, 0x4e0811a1,
   0xf7537e82, 0xbd3af235, 0x2ad7d2bb, 0xeb86d391]

/-- The 64 MD5 per-round left-rotation amounts. -/
def md5S : List Nat :=
  [7, 12, 17, 22, 7, 12, 17, 22, 7, 12, 17, 22, 7, 12, 17, 22,
   5, 9, 14, 20, 5, 9, 14, 20, 5, 9, 14, 20, 5, 9, 14, 20,
   4, 11, 16, 23, 4, 11, 16, 23, 4, 11, 16, 23, 4, 11, 16, 23,
   6, 10, 15, 21, 6, 10, 15, 21, 6, 10, 15, 21, 6, 10, 15, 21]

/-- MD5 round function for round index i. -/
def md5F (i b c d : Nat) : Nat :=
  if i < 16 then (b &&& c) ||| (not32 b &&& d)
  else if i < 32 then (d &&& b) ||| (not32 d &&& c)
  else if i < 48 then b ^^^ c ^^^ d
  else c ^^^ (b ||| not32 d)

/-- MD5 message-word index for round index i. -/
def md5G (i : Nat) : Nat :=
  if i < 16 then i
  else if i < 32 then (5 * i + 1) % 16
  else if i < 48 then (3 * i + 5) % 16
  else (7 * i) % 16

/-- The MD5 working state: four 32-bit words. -/
structure MD5State where
  a : Nat
  b : Nat
  c : Nat
  d : Nat

/-- One MD5 round: m gives the block's 16 little-endian words. -/
def md5Step (m : Nat → Nat) (st : MD5State) (i : Nat) : MD5State :=
  let f := md5F i st.b st.c st.d
  let tmp := (f + st.a + md5K.getD i 0 + m (md5G i)) % M32
  ⟨st.d, add32 st.b ((rotl32 tmp (md5S.getD i 0)) % M32), st.b, st.c⟩

/-- Little-endian bytes of a number, lowest first. -/
def leBytes (n len : Nat) : List Nat :=
  (List.range len).map (fun i => (n >>> (8 * i)) % 256)

/-- MD5 padding: 0x80, zeros to 56 mod 64, then the 64-bit bit length. -/
def md5Pad (msg : List Nat) : List Nat :=
  msg ++ [0x80] ++ List.replicate ((120 - ((msg.length + 1) % 64)) % 64) 0 ++
    leBytes ((8 * msg.length) % (2 ^ 64)) 8

/-- Little-endian 32-bit word read from a byte list at an offset. -/
def leWordAt (p : List Nat) (off : Nat) : Nat :=
  p.getD off 0 + 256 * p.getD (off + 1) 0 + 65536 * p.getD (off + 2) 0 +
    16777216 * p.getD (off + 3) 0

/-- The MD5 digest of a byte list, as 16 bytes. -/
def md5Digest (msg : List Nat) : List Nat :=
  let p := md5Pad msg
  let fin := (List.range (p.length / 64)).foldl
    (fun (st : MD5State) blk =>
      let m := fun j => leWordAt p (64 * blk + 4 * j)
      let r := (List.range 64).foldl (md5Step m) st
      ⟨add32 st.a r.a, add32 st.b r.b, add32 st.c r.c, add32 st.d r.d⟩)
    ⟨0x67452301, 0xefcdab89, 0x98badcfe, 0x10325476⟩
  leBytes fin.a 4 ++ leBytes fin.b 4 ++ leBytes fin.c 4 ++ leBytes fin.d 4

/-- A lowercase hexadecimal digit character for n < 16. -/
def hexDigit (n : Nat) : Char :=
  if n < 10 then Char.ofNat (48 + n) else Char.ofNat (87 + n)

/-- The two hex characters of a byte. -/
def byteHex (b : Nat) : List Char :=
  [hexDigit (b / 16), hexDigit (b % 16)]

/-- Model of `hashlib.md5(bytes).hexdigest()`: lowercase hex MD5 digest. -/
def md5hex (msg : List Nat) : String :=
  ⟨((md5Digest msg).map byteHex).flatten⟩

/-! ### XML escaping (models libxml2 serialization, as used by `lxml.etree`) -/

/-- libxml2 text-content escaping of one character. -/
def escTextChar (c : Char) : List Char :=
  if c = '<' then ['&', 'l', 't', ';']
  else if c = '>' then ['&', 'g', 't', ';']
  else if c = '&' then ['&', 'a', 'm', 'p', ';']
  else if c = '\r' then ['&', '#', '1', '3', ';']
  else [c]

/-- libxml2 text-content escaping of a character list. -/
def escData (l : List Char) : List Char :=
  (l.map escTextChar).flatten

/-- libxml2 text-content escaping of element text (as `lxml` serializes it). -/
def escText (s : String) : String :=
  ⟨escData s.data⟩

/-- libxml2 attribute-value escaping of one character. -/
def escAttrChar (c : Char) : List Char :=
  if c = '<' then ['&', 'l', 't', ';']
  else if c = '>' then ['&', 'g', 't', ';']
  else if c = '&' then ['&', 'a', 'm', 'p', ';']
  else if c = '"' then ['&', 'q', 'u', 'o', 't', ';']
  else if c = '\n' then ['&', '#', '1', '0', ';']
  else if c = '\t' then ['&', '#', '9', ';']
  else if c = '\r' then ['&', '#', '1', '3', ';']
  else [c]

/-- libxml2 attribute-value escaping (as `lxml` serializes attributes). -/
def escAttr (s : String) : String :=
  ⟨(s.data.map escAttrChar).flatten⟩

/-- One step of XML entity decoding: the characters after a `&`. -/
def entStep : List Char → Option (Char × List Char)
  | 'a' :: 'm' :: 'p' :: ';' :: r => some ('&', r)
  | 'l' :: 't' :: ';' :: r => some ('<', r)
  | 'g' :: 't' :: ';' :: r => some ('>', r)
  | 'q' :: 'u' :: 'o' :: 't' :: ';' :: r => some ('"', r)
  | 'a' :: 'p' :: 'o' :: 's' :: ';' :: r => some ('\'', r)
  | '#' :: '1' :: '3' :: ';' :: r => some ('\r', r)
  | '#' :: '1' :: '0' :: ';' :: r => some ('\n', r)
  | '#' :: '9' :: ';' :: r => some ('\t', r)
  | _ => none

/-- Fuel-indexed XML text re-parsing (entity decoding), as an XML parser
would recover element text. -/
def unescAux : Nat → List Char → Option (List Char)
  | _, [] => some []
  | 0, _ :: _ => none
  | fuel + 1, c :: rest =>
    if c = '&' then
      match entStep rest with
      | some (d, r) => (unescAux fuel r).map (fun l => d :: l)
      | none => none
    else (unescAux fuel rest).map (fun l => c :: l)

/-- XML text re-parsing (entity decoding) of a character list. -/
def unesc (l : List Char) : Option (List Char) :=
  unescAux l.length l

/-! ### The segment loop (lines 111-134 of `flat2elisa.py`) -/

/-- The values the loop body computes for one line: document id, the input
file's basename, the 0-based line number, the two character offsets, and the
stripped line text. -/
structure Seg where
  fullid : String
  bn : String
  ln : Nat
  start_char : Int
  end_char : Int
  line : String

/-- The per-line loop: strip the line, set `start_char = currstart` and
`end_char = currstart + len(line) - 1`, then advance `currstart = end_char + 2`. -/
def buildSegs (fullid bn : String) : Nat → Int → List String → List Seg
  | _, _, [] => []
  | ln, currstart, rawline :: rest =>
    let line := pstrip rawline
    let currend : Int := currstart + (line.length : Int) - 1
    ⟨fullid, bn, ln, currstart, currend, line⟩ ::
      buildSegs fullid bn (ln + 1) (currend + 2) rest

/-- The ordered `SOURCE` children built for one segment (lines 122-128). -/
def subelements (s : Seg) : List (String × String) :=
  [("FULL_ID_SOURCE", s.fullid),
   ("ORIG_SEG_ID", "segment-" ++ toString s.ln),
   ("ORIG_FILENAME", s.bn),
   ("MD5_HASH_SOURCE", md5hex (utf8Encode s.line)),
   ("ORIG_RAW_SOURCE", s.line)]

/-- Serialization of one leaf element at a given indent, as `lxml`'s
pretty printer emits it (empty text yields a self-closing tag). -/
def leafString (ind tag text : String) : String :=
  if text = "" then ind ++ "<" ++ tag ++ "/>\n"
  else ind ++ "<" ++ tag ++ ">" ++ escText text ++ "</" ++ tag ++ ">\n"

/-- Concatenation of a list of strings in order. -/
def concatAll : List String → String
  | [] => ""
  | s :: rest => s ++ concatAll rest

/-- `ET.tostring(segroot, pretty_print=True)` for the fixed SEGMENT/SOURCE
tree the loop builds. -/
def segString (s : Seg) : String :=
  "<SEGMENT>\n  <SOURCE id=\"" ++ escAttr (s.fullid ++ "." ++ toString s.ln) ++
    "\" start_char=\"" ++ escAttr (toString s.start_char) ++
    "\" end_char=\"" ++ escAttr (toString s.end_char) ++ "\">\n" ++
    concatAll ((subelements s).map (fun p => leafString "    " p.1 p.2)) ++
    "  </SOURCE>\n</SEGMENT>\n"

/-! ### Filesystem model and the main loop -/

/-- A file's readable line stream: the lines iteration yields, and, when
`failAt = some k`, an error raised after the first k lines are yielded
(modelling e.g. a UTF-8 decode failure mid-file; `some 0` also covers a
failure to open). -/
structure FileContent where
  lines : List String
  failAt : Option Nat

/-- The filesystem as the script observes it: `os.path.exists`,
`os.path.isfile`, `os.listdir`, and each path's readable content. -/
structure FS where
  pexists : String → Bool
  isFile : String → Bool
  listdir : String → List String
  fcontent : String → FileContent

/-- The lines the `for` loop actually receives from a file before any error. -/
def yieldedLines (c : FileContent) : List String :=
  match c.failAt with
  | none => c.lines
  | some k => c.lines.take k

/-- Input resolution (lines 84-94): skip missing paths with a warning, take
files directly, and take the regular files immediately inside a directory. -/
def resolveInputs (fs : FS) : List String → List String × List String
  | [] => ([], [])
  | e :: rest =>
    let r := resolveInputs fs rest
    if fs.pexists e = false then
      (r.1, (e ++ " not found; skipping\n") :: r.2)
    else if fs.isFile e then
      (e :: r.1, r.2)
    else
      (((fs.listdir e).map (pjoin e)).filter fs.isFile ++ r.1, r.2)

/-- The five metadata field names (line 83). -/
def fullidfields : List String :=
  ["SOURCE_LANGUAGE", "GENRE", "PROVENANCE", "DATE", "INDEX_ID"]

/-- Processing of one input file (lines 98-138): returns the bytes written to
the output stream and the warnings written to stderr.  A malformed name
yields no output and a skip warning; otherwise the DOCUMENT element is
written, segments are emitted for the lines yielded before any read error,
a read error adds a warning, and `</DOCUMENT>` is always written. -/
def docOutput (direction : String) (fs : FS) (infile : String) : String × List String :=
  let fullid := (psplit '.' (basename infile)).headD ""
  let idtoks := psplit '_' fullid
  if idtoks.length ≠ fullidfields.length then
    ("", [infile ++ " is not in proper naming convention; skipping\n"])
  else
    let header := "<DOCUMENT id=\"" ++ fullid ++ "\">\n"
    let meta := concatAll ((fullidfields.zip idtoks).map
      (fun p => "  <" ++ p.1 ++ ">" ++ p.2 ++ "</" ++ p.1 ++ ">\n"))
    let dirline := "  <DIRECTION>" ++ direction ++ "</DIRECTION>\n"
    let c := fs.fcontent infile
    let segs := concatAll ((buildSegs fullid (basename infile) 0 0 (yieldedLines c)).map segString)
    let warns := match c.failAt with
      | none => []
      | some _ => [infile ++ " had a problem.\n"]
    (header ++ meta ++ dirline ++ segs ++ "</DOCUMENT>\n", warns)

/-- The per-file loop over the resolved input list. -/
def processAll (direction : String) (fs : FS) : List String → String × List String
  | [] => ("", [])
  | f :: rest =>
    let d := docOutput direction fs f
    let r := processAll direction fs rest
    (d.1 ++ r.1, d.2 ++ r.2)

/-- The whole run (lines 84-139): resolve inputs, write the XML declaration,
DOCTYPE and root element, process every file, close the root element.
Returns the output bytes and the warnings in emission order. -/
def runMain (language direction : String) (fs : FS) (infiles : List String) :
    String × List String :=
  let r := resolveInputs fs infiles
  let docs := processAll direction fs r.1
  ("<?xml version=\"1.0\" encoding=\"UTF-8\"?>\n" ++
    "<!DOCTYPE ELISA_LRLP_CORPUS SYSTEM \"elisa.lrlp.v1.1.dtd\">\n" ++
    "<ELISA_LRLP_CORPUS source_language=\"" ++ language ++ "\">\n" ++
    docs.1 ++ "</ELISA_LRLP_CORPUS>\n",
   r.2 ++ docs.2)

/-! ### Claim-side definitions (written from the spec's words, for comparison) -/

/-- Claim-side offset bookkeeping: with cursor c, a line's segment spans
`(c, c + length - 1)` (length of the stripped line in code points) and the
cursor then becomes `end_char + 2`. -/
def specOffsets : Int → List String → List (Int × Int)
  | _, [] => []
  | c, l :: rest =>
    let e : Int := c + ((pstrip l).length : Int) - 1
    (c, e) :: specOffsets (e + 2) rest

/-- Claim-side serialization of one SEGMENT: a SOURCE child with attributes
`id="fullid.ln"`, `start_char`, `end_char` as decimal strings, and children
in the order FULL_ID_SOURCE, ORIG_SEG_ID, ORIG_FILENAME, MD5_HASH_SOURCE,
ORIG_RAW_SOURCE. -/
def claimSeg (fullid bn : String) (ln : Nat) (c e : Int) (line : String) : String :=
  "<SEGMENT>\n  <SOURCE id=\"" ++ escAttr (fullid ++ "." ++ toString ln) ++
    "\" start_char=\"" ++ escAttr (toString c) ++
    "\" end_char=\"" ++ escAttr (toString e) ++ "\">\n" ++
    leafString "    " "FULL_ID_SOURCE" fullid ++
    leafString "    " "ORIG_SEG_ID" ("segment-" ++ toString ln) ++
    leafString "    " "ORIG_FILENAME" bn ++
    leafString "    " "MD5_HASH_SOURCE" (md5hex (utf8Encode line)) ++
    leafString "    " "ORIG_RAW_SOURCE" line ++
    "  </SOURCE>\n</SEGMENT>\n"

/-- Claim-side segment sequence: line numbers count from 0 and offsets follow
the claimed cursor rule. -/
def claimSegs (fullid bn : String) : Nat → Int → List String → List String
  | _, _, [] => []
  | ln, c, rawl :: rest =>
    let line := pstrip rawl
    let e : Int := c + (line.length : Int) - 1
    claimSeg fullid bn ln c e line :: claimSegs fullid bn (ln + 1) (e + 2) rest

/-- Claim-side DOCUMENT serialization: attribute id = DocumentId, then the
five metadata elements in order, then DIRECTION, then the segments. -/
def claimDoc (d fullid bn t1 t2 t3 t4 t5 : String) (lines : List String) : String :=
  "<DOCUMENT id=\"" ++ fullid ++ "\">\n" ++
  "  <SOURCE_LANGUAGE>" ++ t1 ++ "</SOURCE_LANGUAGE>\n" ++
  "  <GENRE>" ++ t2 ++ "</GENRE>\n" ++
  "  <PROVENANCE>" ++ t3 ++ "</PROVENANCE>\n" ++
  "  <DATE>" ++ t4 ++ "</DATE>\n" ++
  "  <INDEX_ID>" ++ t5 ++ "</INDEX_ID>\n" ++
  "  <DIRECTION>" ++ d ++ "</DIRECTION>\n" ++
  concatAll (claimSegs fullid bn 0 0 lines) ++
  "</DOCUMENT>\n"

/-! ### Helper lemmas -/

theorem buildSegs_offsets (lines : List String) : ∀ (fullid bn : String) (ln : Nat) (c : Int),
    (buildSegs fullid bn ln c lines).map (fun s => (s.start_char, s.end_char)) =
      specOffsets c lines := by
  induction lines with
  | nil => intro fullid bn ln c; rfl
  | cons l rest ih =>
    intro fullid bn ln c
    simp only [buildSegs, specOffsets, List.map, ih]

/-- Concrete filesystem with one valid two-line file, used in witnesses. -/
def fsHW : FS :=
  { pexists := fun p => p == "eng_NW_abc123_20200101_00000001.txt"
    isFile := fun p => p == "eng_NW_abc123_20200101_00000001.txt"
    listdir := fun _ => []
    fcontent := fun _ => { lines := ["Hello", "World"], failAt := none } }

/-! ### Claims -/

/-- C1: for every valid input file the per-file cursor starts at 0, each
segment has `start_char` = cursor and `end_char` = cursor + (stripped length
in code points) - 1, the cursor then becomes `end_char + 2`; the two-line
file "Hello"/"World" yields offsets (0,4) and (6,10). -/
theorem offsets_follow_cursor_rule :
    (∀ (fullid bn : String) (lines : List String),
      (buildSegs fullid bn 0 0 lines).map (fun s => (s.start_char, s.end_char)) =
        specOffsets 0 lines) ∧
    (∀ fullid bn : String,
      (buildSegs fullid bn 0 0 ["Hello", "World"]).map
        (fun s => (s.start_char, s.end_char)) = [(0, 4), (6, 10)]) ∧
    (∀ (d : String) (fs : FS) (f : String),
      (((psplit '.' (basename f)).headD "") |> psplit '_').length = 5 →
      (docOutput d fs f).1 =
        "<DOCUMENT id=\"" ++ (psplit '.' (basename f)).headD "" ++ "\">\n" ++
        concatAll ((fullidfields.zip (((psplit '.' (basename f)).headD "") |> psplit '_')).map
          (fun p => "  <" ++ p.1 ++ ">" ++ p.2 ++ "</" ++ p.1 ++ ">\n")) ++
        "  <DIRECTION>" ++ d ++ "</DIRECTION>\n" ++
        concatAll ((buildSegs ((psplit '.' (basename f)).headD "") (basename f) 0 0
          (yieldedLines (fs.fcontent f))).map segString) ++
        "</DOCUMENT>\n") := by
  refine ⟨fun fullid bn lines => buildSegs_offsets lines fullid bn 0 0, ?_, ?_⟩
  · intro fullid bn
    rw [buildSegs_offsets]
    decide
  · intro d fs f h
    simp only [docOutput, fullidfields, List.length_cons, List.length_nil, h]
    norm_num
    simp only [String.append_assoc]

/-- C1 witness: the hypothesis holds for the sample filename, and the claim's
conclusion holds there. -/
theorem offsets_follow_cursor_rule_witness :
    (((psplit '.' (basename "eng_NW_abc123_20200101_00000001.txt")).headD "") |> psplit '_').length
      = 5 ∧
    (docOutput "fromsource" fsHW "eng_NW_abc123_20200101_00000001.txt").1 =
      "<DOCUMENT id=\"" ++
        (psplit '.' (basename "eng_NW_abc123_20200101_00000001.txt")).headD "" ++ "\">\n" ++
      concatAll ((fullidfields.zip
        (((psplit '.' (basename "eng_NW_abc123_20200101_00000001.txt")).headD "") |> psplit '_')).map (fun p => "  <" ++ p.1 ++ ">" ++ p.2 ++ "</" ++ p.1 ++ ">\n")) ++
      "  <DIRECTION>" ++ "fromsource" ++ "</DIRECTION>\n" ++
      concatAll ((buildSegs
        ((psplit '.' (basename "eng_NW_abc123_20200101_00000001.txt")).headD "")
        (basename "eng_NW_abc123_20200101_00000001.txt") 0 0
        (yieldedLines (fsHW.fcontent "eng_NW_abc123_20200101_00000001.txt"))).map segString) ++
      "</DOCUMENT>\n" :=
  ⟨by decide,
   offsets_follow_cursor_rule.2.2 "fromsource" fsHW "eng_NW_abc123_20200101_00000001.txt"
     (by decide)⟩

/-- C6: a line that is empty after stripping still yields a segment, with
`end_char = start_char - 1` preserved, and the cursor advances to
`end_char + 2`, i.e. by exactly 1. -/
theorem empty_line_inverted_range (fullid bn : String) (ln : Nat) (c : Int)
    (l : String) (rest : List String) (h : pstrip l = "") :
    buildSegs fullid bn ln c (l :: rest) =
      ⟨fullid, bn, ln, c, c - 1, ""⟩ :: buildSegs fullid bn (ln + 1) (c + 1) rest := by
  simp only [buildSegs, h, String.length_empty, Nat.cast_zero]
  have e1 : c + 0 - 1 = c - 1 := by ring
  have e2 : c - 1 + 2 = c + 1 := by ring
  rw [e1, e2]

/-- C6 witness: a whitespace-only line at cursor 0 gives the segment
(0, -1) and the next line starts at 1. -/
theorem empty_line_inverted_range_witness :
    buildSegs "f" "f.txt" 0 0 [" ", "a"] =
      ⟨"f", "f.txt", 0, 0, -1, ""⟩ :: buildSegs "f" "f.txt" 1 1 ["a"] :=
  empty_line_inverted_range "f" "f.txt" 0 0 " " ["a"] (by decide)

set_option maxRecDepth 100000 in
/-- C5 counterexample: the MD5_HASH_SOURCE value computed for the line
"Hello" is not the claimed 31-character string
8b1a9953c4611296a827abf8c47804d (the real digest has 32 hex characters). -/
theorem md5_hello_claimed_digest_wrong :
    (subelements ⟨"eng_NW_abc123_20200101_00000001",
      "eng_NW_abc123_20200101_00000001.txt", 0, 0, 4, "Hello"⟩).getD 3 ("", "") ≠
      ("MD5_HASH_SOURCE", "8b1a9953c4611296a827abf8c47804d") := by
  decide

set_option maxRecDepth 100000 in
/-- C5 (amended): every segment's MD5_HASH_SOURCE is the lowercase hex MD5
digest of the UTF-8 encoding of the stripped line, and "Hello" yields
8b1a9953c4611296a827abf8c47804d7. -/
theorem md5_hash_source_value :
    (∀ s : Seg, (subelements s).getD 3 ("", "") =
      ("MD5_HASH_SOURCE", md5hex (utf8Encode s.line))) ∧
    (∀ (fullid bn : String) (ln : Nat) (c : Int) (raw : String) (rest : List String),
      ((buildSegs fullid bn ln c (raw :: rest)).headD ⟨"", "", 0, 0, 0, ""⟩).line =
        pstrip raw) ∧
    md5hex (utf8Encode "Hello") = "8b1a9953c4611296a827abf8c47804d7" := by
  refine ⟨fun s => rfl, fun fullid bn ln c raw rest => rfl, ?_⟩
  decide

/-- The same filesystem with one file's content replaced by its first k lines
and no read error; used to state what a failing file's partial output equals. -/
def truncFS (fs : FS) (f : String) (k : Nat) : FS :=
  { fs with fcontent := fun p =>
      if p = f then ⟨(fs.fcontent f).lines.take k, none⟩ else fs.fcontent p }

/-- C2: a read error after k lines of a valid file stops that file's
remaining lines (its output equals that of the error-free file truncated to
k lines, so earlier segments are kept), emits one warning naming the file,
still closes the DOCUMENT element, and the next files are still processed. -/
theorem read_error_skips_rest_closes_document (d : String) (fs : FS) (f : String) (k : Nat)
    (hfail : (fs.fcontent f).failAt = some k)
    (hvalid : (psplit '_' ((psplit '.' (basename f)).headD "")).length = 5) :
    (docOutput d fs f).2 = [f ++ " had a problem.\n"] ∧
    (docOutput d fs f).1 = (docOutput d (truncFS fs f k) f).1 ∧
    (∃ body, (docOutput d fs f).1 = body ++ "</DOCUMENT>\n") ∧
    (∀ rest, processAll d fs (f :: rest) =
      ((docOutput d fs f).1 ++ (processAll d fs rest).1,
       (docOutput d fs f).2 ++ (processAll d fs rest).2)) := by
  have hcond : ¬((psplit '_' ((psplit '.' (basename f)).headD "")).length ≠
      fullidfields.length) := by
    rw [hvalid]; decide
  refine ⟨?_, ?_, ?_, fun rest => rfl⟩
  · simp only [docOutput]
    rw [if_neg hcond]
    simp only [hfail]
  · simp only [docOutput]
    rw [if_neg hcond, if_neg hcond]
    simp [truncFS, yieldedLines, hfail]
  · simp only [docOutput]
    rw [if_neg hcond]
    exact ⟨_, rfl⟩

/-- Concrete filesystem whose file raises after yielding one line. -/
def fsErr : FS :=
  { pexists := fun _ => true
    isFile := fun _ => true
    listdir := fun _ => []
    fcontent := fun _ => { lines := ["Hello", "World"], failAt := some 1 } }

/-- C2 witness: a concrete failing file shows the warning and the truncated
output. -/
theorem read_error_skips_rest_closes_document_witness :
    (docOutput "fromsource" fsErr "eng_NW_abc123_20200101_00000001.txt").2 =
      ["eng_NW_abc123_20200101_00000001.txt had a problem.\n"] ∧
    (docOutput "fromsource" fsErr "eng_NW_abc123_20200101_00000001.txt").1 =
      (docOutput "fromsource" (truncFS fsErr "eng_NW_abc123_20200101_00000001.txt" 1)
        "eng_NW_abc123_20200101_00000001.txt").1 :=
  ⟨(read_error_skips_rest_closes_document "fromsource" fsErr
      "eng_NW_abc123_20200101_00000001.txt" 1 rfl (by decide)).1,
   (read_error_skips_rest_closes_document "fromsource" fsErr
      "eng_NW_abc123_20200101_00000001.txt" 1 rfl (by decide)).2.1⟩

/-- Helper: appending the same string on the left is cancellative. -/
theorem strAppend_left_cancel {s a b : String} (h : s ++ a = s ++ b) : a = b := by
  apply String.ext
  have h2 : s.data ++ a.data = s.data ++ b.data := by
    simpa [String.data_append] using congrArg String.data h
  exact List.append_cancel_left h2

/-- C3: the DocumentId is the basename cut at the first dot and split on
underscores; exactly when that does not give 5 tokens, the file contributes
no output bytes (so zero DOCUMENT elements), one warning naming it is
emitted, and the remaining files are still processed; with 5 tokens a
DOCUMENT element is emitted and no such warning occurs. -/
theorem malformed_name_skipped_iff (d : String) (fs : FS) (f : String) :
    ((psplit '_' ((psplit '.' (basename f)).headD "")).length ≠ 5 →
      docOutput d fs f = ("", [f ++ " is not in proper naming convention; skipping\n"]) ∧
      ∀ rest, processAll d fs (f :: rest) =
        ((processAll d fs rest).1,
         (f ++ " is not in proper naming convention; skipping\n") ::
           (processAll d fs rest).2)) ∧
    ((psplit '_' ((psplit '.' (basename f)).headD "")).length = 5 →
      (∃ r, (docOutput d fs f).1 =
        "<DOCUMENT id=\"" ++ ((psplit '.' (basename f)).headD "" ++ ("\">\n" ++ r))) ∧
      (f ++ " is not in proper naming convention; skipping\n") ∉ (docOutput d fs f).2) := by
  constructor
  · intro h
    have hcond : (psplit '_' ((psplit '.' (basename f)).headD "")).length ≠
        fullidfields.length := by
      rw [show fullidfields.length = 5 from rfl]; exact h
    have hd : docOutput d fs f =
        ("", [f ++ " is not in proper naming convention; skipping\n"]) := by
      simp only [docOutput]
      rw [if_pos hcond]
    refine ⟨hd, fun rest => ?_⟩
    simp [processAll, hd]
  · intro h
    have hcond : ¬((psplit '_' ((psplit '.' (basename f)).headD "")).length ≠
        fullidfields.length) := by
      rw [h]; decide
    constructor
    · simp only [docOutput]
      rw [if_neg hcond]
      simp only [String.append_assoc]
      exact ⟨_, rfl⟩
    · simp only [docOutput]
      rw [if_neg hcond]
      cases hc : (fs.fcontent f).failAt with
      | none => simp [hc]
      | some k =>
        simp only [hc, List.mem_singleton]
        intro hw
        have := strAppend_left_cancel hw
        exact absurd this (by decide)

/-- Helper: escaping one character prepends its escape sequence. -/
theorem escData_cons (c : Char) (l : List Char) :
    escData (c :: l) = escTextChar c ++ escData l := by
  simp [escData]

/-- Helper: entity decoding inverts text escaping, given enough fuel. -/
theorem unescAux_escData : ∀ (l : List Char) (fuel : Nat),
    (escData l).length ≤ fuel → unescAux fuel (escData l) = some l := by
  intro l
  induction l with
  | nil =>
    intro fuel _
    cases fuel <;> rfl
  | cons c rest ih =>
    intro fuel h
    rw [escData_cons] at h ⊢
    by_cases h1 : c = '<'
    · subst h1
      rw [show escTextChar '<' = ['&', 'l', 't', ';'] from rfl] at h ⊢
      cases fuel with
      | zero => simp only [List.length_append, List.length_cons] at h; omega
      | succ n =>
        show (unescAux n (escData rest)).map (fun t => '<' :: t) = some ('<' :: rest)
        have hn : (escData rest).length ≤ n := by
          simp only [List.length_append, List.length_cons] at h; omega
        rw [ih n hn]
        rfl
    by_cases h2 : c = '>'
    · subst h2
      rw [show escTextChar '>' = ['&', 'g', 't', ';'] from rfl] at h ⊢
      cases fuel with
      | zero => simp only [List.length_append, List.length_cons] at h; omega
      | succ n =>
        show (unescAux n (escData rest)).map (fun t => '>' :: t) = some ('>' :: rest)
        have hn : (escData rest).length ≤ n := by
          simp only [List.length_append, List.length_cons] at h; omega
        rw [ih n hn]
        rfl
    by_cases h3 : c = '&'
    · subst h3
      rw [show escTextChar '&' = ['&', 'a', 'm', 'p', ';'] from rfl] at h ⊢
      cases fuel with
      | zero => simp only [List.length_append, List.length_cons] at h; omega
      | succ n =>
        show (unescAux n (escData rest)).map (fun t => '&' :: t) = some ('&' :: rest)
        have hn : (escData rest).length ≤ n := by
          simp only [List.length_append, List.length_cons] at h; omega
        rw [ih n hn]
        rfl
    by_cases h4 : c = '\r'
    · subst h4
      rw [show escTextChar '\r' = ['&', '#', '1', '3', ';'] from rfl] at h ⊢
      cases fuel with
      | zero => simp only [List.length_append, List.length_cons] at h; omega
      | succ n =>
        show (unescAux n (escData rest)).map (fun t => '\r' :: t) = some ('\r' :: rest)
        have hn : (escData rest).length ≤ n := by
          simp only [List.length_append, List.length_cons] at h; omega
        rw [ih n hn]
        rfl
    · have hne : escTextChar c = [c] := by
        simp [escTextChar, h1, h2, h3, h4]
      rw [hne] at h ⊢
      cases fuel with
      | zero => simp only [List.length_append, List.length_cons] at h; omega
      | succ n =>
        simp only [List.singleton_append, unescAux]
        rw [if_neg h3]
        have hn : (escData rest).length ≤ n := by
          simp only [List.length_append, List.length_cons] at h; omega
        show Option.map (fun t => c :: t) (unescAux n (escData rest)) = some (c :: rest)
        rw [ih n hn]
        rfl

/-- Concrete filesystem whose files all exist and are empty. -/
def fsEmpty : FS :=
  { pexists := fun _ => true
    isFile := fun _ => true
    listdir := fun _ => []
    fcontent := fun _ => { lines := [], failAt := none } }

set_option maxRecDepth 100000 in
/-- C4 counterexample: with direction string a<b on a valid empty file, the
DIRECTION element text is written raw (the output contains the literal a<b),
not escaped to a&lt;b, so not all element text is XML-escaped. -/
theorem direction_text_not_escaped_cex :
    (docOutput "a<b" fsEmpty "eng_NW_abc123_20200101_00000001.txt").1 =
      "<DOCUMENT id=\"eng_NW_abc123_20200101_00000001\">\n  <SOURCE_LANGUAGE>eng</SOURCE_LANGUAGE>\n  <GENRE>NW</GENRE>\n  <PROVENANCE>abc123</PROVENANCE>\n  <DATE>20200101</DATE>\n  <INDEX_ID>00000001</INDEX_ID>\n  <DIRECTION>a<b</DIRECTION>\n</DOCUMENT>\n" ∧
    escText "a<b" = "a&lt;b" ∧
    (docOutput "a<b" fsEmpty "eng_NW_abc123_20200101_00000001.txt").1 ≠
      "<DOCUMENT id=\"eng_NW_abc123_20200101_00000001\">\n  <SOURCE_LANGUAGE>eng</SOURCE_LANGUAGE>\n  <GENRE>NW</GENRE>\n  <PROVENANCE>abc123</PROVENANCE>\n  <DATE>20200101</DATE>\n  <INDEX_ID>00000001</INDEX_ID>\n  <DIRECTION>a&lt;b</DIRECTION>\n</DOCUMENT>\n" :=
  ⟨by decide, by decide, by decide⟩

/-- C4 (amended): the lxml-serialized SEGMENT subtree is escaped — a
non-empty stripped line is emitted inside ORIG_RAW_SOURCE as its escaped
text, and re-parsing (entity decoding) that escaped text yields back exactly
the original characters; ORIG_RAW_SOURCE is the segment's fifth child. -/
theorem segment_text_escaping_roundtrip :
    (∀ l : List Char, unesc (escData l) = some l) ∧
    (∀ ind tag text : String, text ≠ "" →
      leafString ind tag text =
        ind ++ "<" ++ tag ++ ">" ++ escText text ++ "</" ++ tag ++ ">\n") ∧
    (∀ s : Seg, (subelements s).getD 4 ("", "") = ("ORIG_RAW_SOURCE", s.line)) := by
  refine ⟨fun l => unescAux_escData l (escData l).length (Nat.le_refl _),
    fun ind tag text h => ?_, fun s => rfl⟩
  simp [leafString, h]

/-- C4 witness: the round trip and the escaped leaf on a line containing
reserved characters. -/
theorem segment_text_escaping_roundtrip_witness :
    unesc (escData "a<b&\"".data) = some "a<b&\"".data ∧
    leafString "    " "ORIG_RAW_SOURCE" "a<b" =
      "    " ++ "<" ++ "ORIG_RAW_SOURCE" ++ ">" ++ escText "a<b" ++ "</" ++
        "ORIG_RAW_SOURCE" ++ ">\n" :=
  ⟨segment_text_escaping_roundtrip.1 "a<b&\"".data,
   segment_text_escaping_roundtrip.2.1 "    " "ORIG_RAW_SOURCE" "a<b" (by decide)⟩

/-- C3 witness: a malformed filename is skipped with the warning; a valid
filename is not. -/
theorem malformed_name_skipped_iff_witness :
    docOutput "fromsource" fsHW "bad_name.txt" =
      ("", ["bad_name.txt is not in proper naming convention; skipping\n"]) ∧
    ("eng_NW_abc123_20200101_00000001.txt is not in proper naming convention; skipping\n")
      ∉ (docOutput "fromsource" fsHW "eng_NW_abc123_20200101_00000001.txt").2 := by
  constructor
  · exact ((malformed_name_skipped_iff "fromsource" fsHW "bad_name.txt").1 (by decide)).1
  · exact ((malformed_name_skipped_iff "fromsource" fsHW
      "eng_NW_abc123_20200101_00000001.txt").2 (by decide)).2

/-- Helper: the serialized segments equal the claim-side segment strings. -/
theorem claimSegs_eq : ∀ (lines : List String) (fullid bn : String) (ln : Nat) (c : Int),
    (buildSegs fullid bn ln c lines).map segString = claimSegs fullid bn ln c lines := by
  intro lines
  induction lines with
  | nil => intro fullid bn ln c; rfl
  | cons l rest ih =>
    intro fullid bn ln c
    simp only [buildSegs, claimSegs, List.map, ih]
    simp only [segString, claimSeg, subelements, List.map, concatAll,
      String.append_assoc, String.append_empty]

/-- C7: for every file whose DocumentId yields five tokens, the written
DOCUMENT element is exactly the claim-side serialization: attribute id =
DocumentId, then SOURCE_LANGUAGE, GENRE, PROVENANCE, DATE, INDEX_ID, then
DIRECTION, then the SEGMENTs in line order, each SOURCE carrying id
"fullid.ln", decimal start_char and end_char, and children FULL_ID_SOURCE,
ORIG_SEG_ID = "segment-ln", ORIG_FILENAME = basename, MD5_HASH_SOURCE,
ORIG_RAW_SOURCE in that order. -/
theorem document_element_structure (d : String) (fs : FS) (f t1 t2 t3 t4 t5 : String)
    (htoks : psplit '_' ((psplit '.' (basename f)).headD "") = [t1, t2, t3, t4, t5]) :
    (docOutput d fs f).1 =
      claimDoc d ((psplit '.' (basename f)).headD "") (basename f) t1 t2 t3 t4 t5
        (yieldedLines (fs.fcontent f)) := by
  have hcond : ¬((psplit '_' ((psplit '.' (basename f)).headD "")).length ≠
      fullidfields.length) := by
    rw [htoks]; simp [fullidfields]
  simp only [docOutput]
  rw [if_neg hcond, htoks]
  simp only [claimDoc, fullidfields, List.zip_cons_cons, List.zip_nil_left,
    List.zip_nil_right, List.map, concatAll, claimSegs_eq, String.append_assoc,
    String.append_empty]
  rfl

/-- C7 witness: the five-token hypothesis and the structure equation hold for
a concrete valid file. -/
theorem document_element_structure_witness :
    psplit '_' ((psplit '.'
      (basename "eng_NW_abc123_20200101_00000001.txt")).headD "") =
      ["eng", "NW", "abc123", "20200101", "00000001"] ∧
    (docOutput "fromsource" fsHW "eng_NW_abc123_20200101_00000001.txt").1 =
      claimDoc "fromsource"
        ((psplit '.' (basename "eng_NW_abc123_20200101_00000001.txt")).headD "")
        (basename "eng_NW_abc123_20200101_00000001.txt")
        "eng" "NW" "abc123" "20200101" "00000001"
        (yieldedLines (fsHW.fcontent "eng_NW_abc123_20200101_00000001.txt")) :=
  ⟨by decide,
   document_element_structure "fromsource" fsHW "eng_NW_abc123_20200101_00000001.txt"
     "eng" "NW" "abc123" "20200101" "00000001" (by decide)⟩

/-- C8: input resolution: a missing path contributes nothing and one warning;
an existing regular file contributes itself; an existing non-file (directory)
contributes the regular files directly inside it, in listing order, with no
recursion; contributions keep the outer list order. -/
theorem input_path_resolution (fs : FS) (e : String) (rest : List String) :
    (fs.pexists e = false →
      resolveInputs fs (e :: rest) =
        ((resolveInputs fs rest).1,
         (e ++ " not found; skipping\n") :: (resolveInputs fs rest).2)) ∧
    (fs.pexists e = true → fs.isFile e = true →
      resolveInputs fs (e :: rest) =
        (e :: (resolveInputs fs rest).1, (resolveInputs fs rest).2)) ∧
    (fs.pexists e = true → fs.isFile e = false →
      resolveInputs fs (e :: rest) =
        (((fs.listdir e).map (pjoin e)).filter fs.isFile ++ (resolveInputs fs rest).1,
         (resolveInputs fs rest).2)) ∧
    resolveInputs fs ([] : List String) = ([], []) := by
  refine ⟨fun h => ?_, fun h1 h2 => ?_, fun h1 h2 => ?_, rfl⟩
  · simp [resolveInputs, h]
  · simp [resolveInputs, h1, h2]
  · simp [resolveInputs, h1, h2]

/-- Concrete filesystem with one missing path, one file, and one directory
holding two files and a subdirectory. -/
def fsW : FS :=
  { pexists := fun p => p != "missing"
    isFile := fun p => p == "f1.txt" || p == "d/a.txt" || p == "d/b.txt"
    listdir := fun p => if p == "d" then ["a.txt", "sub", "b.txt"] else []
    fcontent := fun _ => { lines := [], failAt := none } }

/-- C8 witness: resolving a missing path, a file and a directory gives the
directory's two regular files in listing order and one warning. -/
theorem input_path_resolution_witness :
    resolveInputs fsW ["missing", "f1.txt", "d"] =
      (["f1.txt", "d/a.txt", "d/b.txt"], ["missing not found; skipping\n"]) := by
  have h1 := (input_path_resolution fsW "missing" ["f1.txt", "d"]).1 (by decide)
  have h2 := (input_path_resolution fsW "f1.txt" ["d"]).2.1 (by decide) (by decide)
  have h3 := (input_path_resolution fsW "d" []).2.2.1 (by decide) (by decide)
  have h4 := (input_path_resolution fsW "d" []).2.2.2
  rw [h1, h2, h3, h4]
  decide

/-- C9: the run is deterministic: identical language and direction flags,
identical filesystem contents and identical input lists give identical
output bytes and warnings. -/
theorem run_deterministic (l1 l2 d1 d2 : String) (fs1 fs2 : FS) (i1 i2 : List String)
    (hl : l1 = l2) (hd : d1 = d2) (hfs : fs1 = fs2) (hi : i1 = i2) :
    runMain l1 d1 fs1 i1 = runMain l2 d2 fs2 i2 := by
  subst hl; subst hd; subst hfs; subst hi; rfl

/-- C9 witness: two identical concrete runs coincide. -/
theorem run_deterministic_witness :
    runMain "eng" "fromsource" fsHW ["eng_NW_abc123_20200101_00000001.txt"] =
      runMain "eng" "fromsource" fsHW ["eng_NW_abc123_20200101_00000001.txt"] :=
  run_deterministic "eng" "eng" "fromsource" "fromsource" fsHW fsHW
    ["eng_NW_abc123_20200101_00000001.txt"] ["eng_NW_abc123_20200101_00000001.txt"]
    rfl rfl rfl rfl

/-- C10: no deduplication: a path listed twice resolves to two occurrences,
each occurrence is fully processed (the same document bytes and warnings are
emitted twice), and for a valid name each occurrence opens a DOCUMENT element
with the same id attribute. -/
theorem duplicate_input_no_dedup (d : String) (fs : FS) (p : String) (rest : List String) :
    (fs.pexists p = true → fs.isFile p = true →
      resolveInputs fs (p :: p :: rest) =
        (p :: p :: (resolveInputs fs rest).1, (resolveInputs fs rest).2)) ∧
    processAll d fs (p :: p :: rest) =
      ((docOutput d fs p).1 ++ ((docOutput d fs p).1 ++ (processAll d fs rest).1),
       (docOutput d fs p).2 ++ ((docOutput d fs p).2 ++ (processAll d fs rest).2)) ∧
    ((psplit '_' ((psplit '.' (basename p)).headD "")).length = 5 →
      ∃ r, (docOutput d fs p).1 =
        "<DOCUMENT id=\"" ++ ((psplit '.' (basename p)).headD "" ++ ("\">\n" ++ r))) := by
  refine ⟨fun h1 h2 => ?_, rfl, fun h5 => ?_⟩
  · simp [resolveInputs, h1, h2]
  · have hcond : ¬((psplit '_' ((psplit '.' (basename p)).headD "")).length ≠
        fullidfields.length) := by
      rw [h5]; decide
    simp only [docOutput]
    rw [if_neg hcond]
    simp only [String.append_assoc]
    exact ⟨_, rfl⟩

/-- C10 witness: a valid file listed twice is resolved twice and yields a
DOCUMENT with its id. -/
theorem duplicate_input_no_dedup_witness :
    resolveInputs fsHW
        ["eng_NW_abc123_20200101_00000001.txt", "eng_NW_abc123_20200101_00000001.txt"] =
      ("eng_NW_abc123_20200101_00000001.txt" :: "eng_NW_abc123_20200101_00000001.txt" ::
        (resolveInputs fsHW ([] : List String)).1,
       (resolveInputs fsHW ([] : List String)).2) ∧
    ∃ r, (docOutput "fromsource" fsHW "eng_NW_abc123_20200101_00000001.txt").1 =
      "<DOCUMENT id=\"" ++
        ((psplit '.' (basename "eng_NW_abc123_20200101_00000001.txt")).headD "" ++
          ("\">\n" ++ r)) :=
  ⟨(duplicate_input_no_dedup "fromsource" fsHW "eng_NW_abc123_20200101_00000001.txt"
      []).1 rfl rfl,
   (duplicate_input_no_dedup "fromsource" fsHW "eng_NW_abc123_20200101_00000001.txt"
      []).2.2 (by decide)⟩
